import Mathlib

/-!
Verification of the cga.js linear-algebra and distance layer.

The 2x2 matrix class (src/unnamed/part_000) is embedded shallowly:
matrix element values become rational numbers, and — because the class
exposes shared mutable statics (Mat2.ZERO, Mat2.IDENTITY) and in-place
mutation (copyTo, forEachRowOrder) — every static method that allocates,
mutates or returns a shared object is modelled in heap-passing style.
A heap is a list of matrix values; an object reference is an index into
that list; the two statics live at fixed indices of the initial heap.
-/

namespace CGA

/-- Value of a 2x2 matrix: row-major fields v11 v12 v21 v22, matching the
class fields of Mat2 (src/unnamed/part_000).  Field initializers in the
source are 0, so the default value is the all-zero matrix. -/
structure Mat2V where
  v11 : ℚ
  v12 : ℚ
  v21 : ℚ
  v22 : ℚ
deriving DecidableEq, Repr, Inhabited

/-- An object reference: an index into the heap. -/
abbrev Ref := Nat

/-- The heap of Mat2 objects; allocation appends, mutation sets in place. -/
abbrev Heap := List Mat2V

/-- Read the matrix value a reference points at. -/
def getM (h : Heap) (r : Ref) : Mat2V := h.getD r default

/-- Overwrite the matrix value a reference points at (in-place mutation). -/
def setM (h : Heap) (r : Ref) (v : Mat2V) : Heap := h.set r v

/-- Allocate a fresh object holding the given value; returns the grown heap
and the fresh reference. -/
def allocM (h : Heap) (v : Mat2V) : Heap × Ref := (h ++ [v], h.length)

namespace Mat2

/-- The non-fatal console.warn diagnostics the Mat2 constructor can emit. -/
inductive Warning where
  | cutOff
  | fillWithZero
deriving DecidableEq, Repr

/-- The Mat2 constructor (src/unnamed/part_000 lines 22-36): with more than
4 values it truncates to the first 4 and warns; with fewer than 4 it pads
with zeros and warns; with exactly 4 it assigns them as given.  The four
entries of the resulting length-4 list are destructured into
v11, v12, v21, v22 in row-major order.  Returns the value together with
the warnings emitted; it never fails. -/
def mkMat2 (values : List ℚ) : Mat2V × List Warning :=
  let length := values.length
  let p : List ℚ × List Warning :=
    if length > 4 then
      (values.take 4, [.cutOff])
    else if length < 4 then
      (values ++ List.replicate (4 - length) 0, [.fillWithZero])
    else
      (values, [])
  (⟨p.1.getD 0 0, p.1.getD 1 0, p.1.getD 2 0, p.1.getD 3 0⟩, p.2)

/-- The value built by the constructor (warnings dropped). -/
def ctorV (values : List ℚ) : Mat2V := (mkMat2 values).1

/-- Value of the static Mat2.IDENTITY, built as new Mat2(1, 0, 0, 1). -/
def IDENTITY : Mat2V := ctorV [1, 0, 0, 1]

/-- Value of the static Mat2.ZERO, built as new Mat2(0, 0, 0, 0). -/
def ZERO : Mat2V := ctorV [0, 0, 0, 0]

/-- Reference of the shared static Mat2.IDENTITY object (declared first). -/
def identityRef : Ref := 0

/-- Reference of the shared static Mat2.ZERO object (declared second). -/
def zeroRef : Ref := 1

/-- The heap right after class initialization: the two statics. -/
def initHeap : Heap := [IDENTITY, ZERO]

/-- Mat2.toArray: the row-major two-dimensional array of a matrix value. -/
def toArray (m : Mat2V) : List (List ℚ) :=
  [[m.v11, m.v12],
   [m.v21, m.v22]]

/-- Mat2.toFlatArray: toArray flattened. -/
def toFlatArray (m : Mat2V) : List ℚ := (toArray m).flatten

/-- Mat2.flat: same as toFlatArray. -/
def flat (m : Mat2V) : List ℚ := toFlatArray m

/-- Mat2.determinant. -/
def determinant (m : Mat2V) : ℚ := m.v11 * m.v22 - m.v12 * m.v21

/-- Mat2.equalPerElement: strict equality of all four elements, no
tolerance. -/
def equalPerElement (a b : Mat2V) : Bool :=
  decide (a.v11 = b.v11 ∧ a.v12 = b.v12 ∧ a.v21 = b.v21 ∧ a.v22 = b.v22)

/-- Mat2.copyTo: writes the four elements of the source object into the
target object and returns the target.  In the source the target parameter
defaults to the shared static Mat2.ZERO, i.e. to zeroRef. -/
def copyTo (h : Heap) (sourceMatrix toMatrix : Ref) : Heap × Ref :=
  (setM h toMatrix (getM h sourceMatrix), toMatrix)

/-- Mat2.clone: new Mat2(m.v11, m.v12, m.v21, m.v22) — a fresh object. -/
def clone (h : Heap) (m : Ref) : Heap × Ref :=
  allocM h (ctorV [(getM h m).v11, (getM h m).v12, (getM h m).v21, (getM h m).v22])

/-- Mat2.fromArray: new Mat2(...arr). -/
def fromArray (h : Heap) (arr : List ℚ) : Heap × Ref :=
  allocM h (ctorV arr)

/-- The value computed by Mat2.multiply: both operands are flattened and
the row-major product entries are fed to the constructor. -/
def multiplyV (left right : Mat2V) : Mat2V :=
  let lf := flat left
  let rf := flat right
  ctorV [lf.getD 0 0 * rf.getD 0 0 + lf.getD 1 0 * rf.getD 2 0,
         lf.getD 0 0 * rf.getD 1 0 + lf.getD 1 0 * rf.getD 3 0,
         lf.getD 2 0 * rf.getD 0 0 + lf.getD 3 0 * rf.getD 2 0,
         lf.getD 2 0 * rf.getD 1 0 + lf.getD 3 0 * rf.getD 3 0]

/-- Mat2.multiply: allocates a fresh object holding the product. -/
def multiply (h : Heap) (left right : Ref) : Heap × Ref :=
  allocM h (multiplyV (getM h left) (getM h right))

/-- Mat2.forEachRowOrder: mutates the object in place, replacing each
element by fn applied to it and to its row-major index, and returns the
same object. -/
def forEachRowOrder (h : Heap) (m : Ref) (fn : ℚ → Nat → ℚ) : Heap × Ref :=
  let v := getM h m
  (setM h m ⟨fn v.v11 0, fn v.v12 1, fn v.v21 2, fn v.v22 3⟩, m)

/-- Mat2.multiplyByScalar: when the scalar is 0 it returns the shared
static Mat2.ZERO object without allocating; otherwise it clones the
argument and scales the clone in place via forEachRowOrder. -/
def multiplyByScalar (h : Heap) (m : Ref) (num : ℚ) : Heap × Ref :=
  if num = 0 then
    (h, zeroRef)
  else
    let ht := clone h m
    forEachRowOrder ht.1 ht.2 (fun v _ => v * num)

/-- The error Mat2.inverse throws on a singular matrix. -/
inductive InverseError where
  | canNotBeInverse
deriving DecidableEq, Repr

/-- Mat2.inverse: throws when the determinant is 0; otherwise allocates the
adjugate new Mat2(v22, -v12, -v21, v11) and scales it by 1/det through
multiplyByScalar. -/
def inverse (h : Heap) (m : Ref) : Except InverseError (Heap × Ref) :=
  let det := determinant (getM h m)
  if det = 0 then
    .error .canNotBeInverse
  else
    let ha := allocM h (ctorV [(getM h m).v22, -(getM h m).v12, -(getM h m).v21, (getM h m).v11])
    .ok (multiplyByScalar ha.1 ha.2 (1 / det))

/-- Mat2.transpose: a fresh object with rows and columns exchanged. -/
def transpose (h : Heap) (m : Ref) : Heap × Ref :=
  allocM h (ctorV [(getM h m).v11, (getM h m).v21, (getM h m).v12, (getM h m).v22])

/-- The value multiplyByScalar writes into the scaled clone: each element
multiplied by the scalar (the callback is fun v => v * num). -/
def scaleV (m : Mat2V) (num : ℚ) : Mat2V :=
  ⟨m.v11 * num, m.v12 * num, m.v21 * num, m.v22 * num⟩

/-- The adjugate value inverse builds: new Mat2(v22, -v12, -v21, v11). -/
def adjV (m : Mat2V) : Mat2V := ⟨m.v22, -m.v12, -m.v21, m.v11⟩

/-- The value of the inverse matrix: the adjugate scaled by 1/det. -/
def invV (m : Mat2V) : Mat2V := scaleV (adjV m) (1 / determinant m)

end Mat2

/-!
Dynamic-value semantics of the Mat2 constructor.  Mat2.toArray produces a
nested array (number[][]) while Mat2.fromArray spreads its argument into
the constructor expecting raw numbers (number[]).  Composing them is a
static type error in TypeScript; under the underlying JavaScript runtime
semantics the spread passes two array values to the constructor, which
pads the 2-element argument list with zeros and assigns the two inner
arrays to v11 and v12.  To state exactly what that composition does, the
constructor is replayed over a dynamic value type covering both numbers
and arrays.
-/

/-- A JavaScript runtime value relevant here: a number or an array. -/
inductive JVal where
  | num (q : ℚ)
  | arr (l : List JVal)

/-- A Mat2 object whose fields hold dynamic values, as JavaScript
assignment leaves them when the constructor arguments are not numbers. -/
structure Mat2J where
  v11 : JVal
  v12 : JVal
  v21 : JVal
  v22 : JVal

namespace Mat2J

/-- The Mat2 constructor over dynamic values: the same truncate or
zero-pad policy, then row-major destructuring. -/
def mkMat2J (values : List JVal) : Mat2J :=
  let invalidValues :=
    if values.length > 4 then values.take 4
    else if values.length < 4 then values ++ List.replicate (4 - values.length) (.num 0)
    else values
  ⟨invalidValues.getD 0 (.num 0), invalidValues.getD 1 (.num 0),
   invalidValues.getD 2 (.num 0), invalidValues.getD 3 (.num 0)⟩

/-- Mat2.toArray as a JavaScript value: an array of the two fresh row
arrays. -/
def toArrayJ (m : Mat2J) : List JVal :=
  [.arr [m.v11, m.v12], .arr [m.v21, m.v22]]

/-- Mat2.fromArray over dynamic values: new Mat2(...arr). -/
def fromArrayJ (arr : List JVal) : Mat2J := mkMat2J arr

/-- JavaScript strict equality on the values compared here: between two
numbers it is numeric equality; between a number and an array it is
false; between an array produced fresh by toArray and any previously
existing value it is false (strict equality on objects is reference
equality, and a fresh array is a distinct object). -/
def strictEq : JVal → JVal → Bool
  | .num a, .num b => a == b
  | _, _ => false

/-- Mat2.equalPerElement replayed over dynamic values: strict equality of
the four fields. -/
def equalPerElementJ (a b : Mat2J) : Bool :=
  strictEq a.v11 b.v11 && strictEq a.v12 b.v12 &&
  strictEq a.v21 b.v21 && strictEq a.v22 b.v22

/-- A well-formed Mat2 value seen as a dynamic-value object: every field
holds a number. -/
def jOfV (m : Mat2V) : Mat2J :=
  ⟨.num m.v11, .num m.v12, .num m.v21, .num m.v22⟩

end Mat2J

/-!
The Line distance engine.  The repository files at hand contain only the
type declaration src/dist/struct/3d/Line.d.ts; the implementation of the
distance computations is not among them, so the definitions below are
modelled from the specification (sections 3, 4.1 and 7): exact arithmetic
over the rationals, with the one representational change that a
DistanceResult carries the squared Euclidean distance (the square root of
a rational is not rational; the squared distance determines the distance,
and every property below is stated through it).  The direction vector is
kept unnormalized (end - origin): normalization only rescales the line
parameter and changes no distance or closest point.  Epsilon-guarded
degeneracy and parallelism tests become exact zero tests.
-/

/-- Modelled from the spec: a 3D vector (section 3), components as exact
rationals. -/
structure Vec3 where
  x : ℚ
  y : ℚ
  z : ℚ
deriving DecidableEq, Repr

namespace Vec3

/-- Componentwise sum. -/
def add (a b : Vec3) : Vec3 := ⟨a.x + b.x, a.y + b.y, a.z + b.z⟩

/-- Componentwise difference. -/
def sub (a b : Vec3) : Vec3 := ⟨a.x - b.x, a.y - b.y, a.z - b.z⟩

/-- Scalar multiple. -/
def smul (c : ℚ) (a : Vec3) : Vec3 := ⟨c * a.x, c * a.y, c * a.z⟩

/-- Dot product. -/
def dot (a b : Vec3) : ℚ := a.x * b.x + a.y * b.y + a.z * b.z

/-- Cross product. -/
def cross (a b : Vec3) : Vec3 :=
  ⟨a.y * b.z - a.z * b.y, a.z * b.x - a.x * b.z, a.x * b.y - a.y * b.x⟩

/-- Squared Euclidean length. -/
def normSq (a : Vec3) : ℚ := dot a a

/-- The zero vector. -/
def zero : Vec3 := ⟨0, 0, 0⟩

end Vec3

/-- Modelled from the spec: the degenerate-construction error a distance
computation on a zero-length-direction primitive fails with (sections 4.1
and 7), plus the rejection of a vertex chain too short to form a segment. -/
inductive GeomError where
  | degenerateConstruction
  | tooFewPoints
deriving DecidableEq, Repr

/-- Modelled from the spec: a DistanceResult (section 3) — the minimum
separation (carried squared, see above) and the closest point on each
side, self first. -/
structure DistanceResult where
  distanceSq : ℚ
  closestPointOnSelf : Vec3
  closestPointOnOther : Vec3
deriving DecidableEq, Repr

/-- Modelled from the spec: a Line holds its two defining points
(src/dist/struct/3d/Line.d.ts fields origin and end; the second is named
endPt here because end is a reserved word). -/
structure Line where
  origin : Vec3
  endPt : Vec3
deriving DecidableEq, Repr

/-- Modelled from the spec: a Segment holds its two endpoints,
parametrized by t in [0,1]. -/
structure Segment where
  p0 : Vec3
  p1 : Vec3
deriving DecidableEq, Repr

/-- Modelled from the spec: a Ray holds an origin and a direction,
parametrized by t in [0,inf). -/
structure Ray where
  origin : Vec3
  direction : Vec3
deriving DecidableEq, Repr

/-- Modelled from the spec: a Triangle holds three ordered vertices. -/
structure Triangle where
  a : Vec3
  b : Vec3
  c : Vec3
deriving DecidableEq, Repr

namespace Line

/-- Modelled from the spec: the derived direction end - origin (section 3;
unnormalized, see the note above). -/
def direction (l : Line) : Vec3 := Vec3.sub l.endPt l.origin

/-- Modelled from the spec: the degenerate-construction condition, origin
equal to end (section 3 invariant). -/
def degenerate (l : Line) : Prop := l.origin = l.endPt

instance (l : Line) : Decidable l.degenerate := by
  unfold degenerate; infer_instance

/-- Modelled from the spec (section 4.1, Line to Point): project the point
onto the infinite line through o with direction u via the dot-product
parametrization, no clamping; the self point is the projection, the other
point the queried point. -/
def linePointCore (o u pt : Vec3) : DistanceResult :=
  let t := Vec3.dot (Vec3.sub pt o) u / Vec3.dot u u
  let closest := Vec3.add o (Vec3.smul t u)
  ⟨Vec3.normSq (Vec3.sub pt closest), closest, pt⟩

/-- The result with the smaller squared distance (the first on a tie). -/
def minRes (r1 r2 : DistanceResult) : DistanceResult :=
  if r1.distanceSq ≤ r2.distanceSq then r1 else r2

/-- Modelled from the spec (section 4.1, general pattern and Line to
Segment): solve the unconstrained two-parameter closest-approach system,
clamp the bounded parameter t to [0,1], and re-derive the line-side
closest point by re-projecting against the now-fixed segment point; when
the directions are parallel (cross product zero), fall back to
line-to-point at the segment start. -/
def distSegCore (o u p0 p1 : Vec3) : DistanceResult :=
  let v := Vec3.sub p1 p0
  if Vec3.cross u v = Vec3.zero then
    linePointCore o u p0
  else
    let w := Vec3.sub o p0
    let a := Vec3.dot u u
    let b := Vec3.dot u v
    let c := Vec3.dot v v
    let d := Vec3.dot u w
    let e := Vec3.dot v w
    let denom := a * c - b * b
    let t := (a * e - b * d) / denom
    let tc := max 0 (min 1 t)
    linePointCore o u (Vec3.add p0 (Vec3.smul tc v))

/-- Modelled from the spec (section 4.1, Line to Polyline): the minimum
over the consecutive-point segments of the chain. -/
def polyCore (o u : Vec3) : Vec3 → Vec3 → List Vec3 → DistanceResult
  | p, q, [] => distSegCore o u p q
  | p, q, r :: rest => minRes (distSegCore o u p q) (polyCore o u q r rest)

/-- Modelled from the spec (section 4.1, barycentric sign test): whether a
point of the triangle plane lies inside the triangle, via the sign of the
triple products of the edges against the plane normal n. -/
def insideTri (tri : Triangle) (n p : Vec3) : Bool :=
  decide (0 ≤ Vec3.dot n (Vec3.cross (Vec3.sub tri.b tri.a) (Vec3.sub p tri.a))) &&
  decide (0 ≤ Vec3.dot n (Vec3.cross (Vec3.sub tri.c tri.b) (Vec3.sub p tri.b))) &&
  decide (0 ≤ Vec3.dot n (Vec3.cross (Vec3.sub tri.a tri.c) (Vec3.sub p tri.c)))

/-- Modelled from the spec: Line.distancePoint — fails on a degenerate
line, otherwise the unclamped projection (sections 4.1 and 7). -/
def distancePoint (l : Line) (pt : Vec3) : Except GeomError DistanceResult :=
  if l.origin = l.endPt then .error .degenerateConstruction
  else .ok (linePointCore l.origin l.direction pt)

/-- Modelled from the spec: Line.distanceSegment — fails on a degenerate
line, otherwise the clamped two-pass solution (sections 4.1 and 7). -/
def distanceSegment (l : Line) (seg : Segment) : Except GeomError DistanceResult :=
  if l.origin = l.endPt then .error .degenerateConstruction
  else .ok (distSegCore l.origin l.direction seg.p0 seg.p1)

/-- Modelled from the spec: Line.distanceLine — fails on a degenerate
line (either one); when the two directions are parallel (cross product
zero, the epsilon test made exact) it falls back to line-to-point using
the other line's origin; otherwise it solves the classic skew-line
closest-approach linear system (section 4.1). -/
def distanceLine (l other : Line) : Except GeomError DistanceResult :=
  if l.origin = l.endPt then .error .degenerateConstruction
  else if other.origin = other.endPt then .error .degenerateConstruction
  else
    let u := l.direction
    let v := other.direction
    if Vec3.cross u v = Vec3.zero then
      .ok (linePointCore l.origin u other.origin)
    else
      let w := Vec3.sub l.origin other.origin
      let a := Vec3.dot u u
      let b := Vec3.dot u v
      let c := Vec3.dot v v
      let d := Vec3.dot u w
      let e := Vec3.dot v w
      let denom := a * c - b * b
      let s := (b * e - c * d) / denom
      let t := (a * e - b * d) / denom
      let p1 := Vec3.add l.origin (Vec3.smul s u)
      let p2 := Vec3.add other.origin (Vec3.smul t v)
      .ok ⟨Vec3.normSq (Vec3.sub p1 p2), p1, p2⟩

/-- Modelled from the spec: Line.distanceRay — fails on a degenerate line
or a zero-direction ray; parallel fallback to the ray origin; otherwise
the linear system with the ray parameter clamped to t ≥ 0, re-projecting
against the clamped ray point (section 4.1). -/
def distanceRay (l : Line) (ray : Ray) : Except GeomError DistanceResult :=
  if l.origin = l.endPt then .error .degenerateConstruction
  else if ray.direction = Vec3.zero then .error .degenerateConstruction
  else
    let u := l.direction
    let v := ray.direction
    if Vec3.cross u v = Vec3.zero then
      .ok (linePointCore l.origin u ray.origin)
    else
      let w := Vec3.sub l.origin ray.origin
      let a := Vec3.dot u u
      let b := Vec3.dot u v
      let c := Vec3.dot v v
      let d := Vec3.dot u w
      let e := Vec3.dot v w
      let denom := a * c - b * b
      let t := (a * e - b * d) / denom
      let tc := max 0 t
      .ok (linePointCore l.origin u (Vec3.add ray.origin (Vec3.smul tc v)))

/-- Modelled from the spec: Line.distanceTriangle — fails on a degenerate
line; if the line meets the triangle plane inside the triangle the
distance is zero at the intersection point, otherwise the minimum of the
line-to-edge distances (section 4.1). -/
def distanceTriangle (l : Line) (tri : Triangle) : Except GeomError DistanceResult :=
  if l.origin = l.endPt then .error .degenerateConstruction
  else
    let u := l.direction
    let n := Vec3.cross (Vec3.sub tri.b tri.a) (Vec3.sub tri.c tri.a)
    let edgeMin := minRes (distSegCore l.origin u tri.a tri.b)
      (minRes (distSegCore l.origin u tri.b tri.c) (distSegCore l.origin u tri.c tri.a))
    if Vec3.dot n u = 0 then
      .ok edgeMin
    else
      let t := Vec3.dot n (Vec3.sub tri.a l.origin) / Vec3.dot n u
      let p := Vec3.add l.origin (Vec3.smul t u)
      if insideTri tri n p then .ok ⟨0, p, p⟩ else .ok edgeMin

/-- Modelled from the spec: Line.distancePolyline — fails on a degenerate
line, rejects a chain of fewer than two points, otherwise the minimum
over the consecutive segments (sections 3 and 4.1). -/
def distancePolyline (l : Line) (pts : List Vec3) : Except GeomError DistanceResult :=
  if l.origin = l.endPt then .error .degenerateConstruction
  else
    match pts with
    | p :: q :: rest => .ok (polyCore l.origin l.direction p q rest)
    | _ => .error .tooFewPoints

end Line

/-! ## Heap lemmas -/

theorem getM_append_self (h : Heap) (v : Mat2V) : getM (h ++ [v]) h.length = v := by
  induction h with
  | nil => rfl
  | cons a t ih => simp [getM, List.getD_cons_succ]

theorem getM_append_lt (h : Heap) (v : Mat2V) (r : Ref) (hr : r < h.length) :
    getM (h ++ [v]) r = getM h r := by
  induction h generalizing r with
  | nil => cases hr
  | cons a t ih =>
    cases r with
    | zero => rfl
    | succ n =>
      have : n < t.length := Nat.lt_of_succ_lt_succ hr
      simpa [getM, List.getD_cons_succ] using ih n this

theorem getM_set_self (h : Heap) (r : Ref) (v : Mat2V) (hr : r < h.length) :
    getM (setM h r v) r = v := by
  induction h generalizing r with
  | nil => cases hr
  | cons a t ih =>
    cases r with
    | zero => rfl
    | succ n =>
      have : n < t.length := Nat.lt_of_succ_lt_succ hr
      simpa [getM, setM, List.getD_cons_succ] using ih n this

theorem getM_set_ne (h : Heap) (r r' : Ref) (v : Mat2V) (hne : r' ≠ r) :
    getM (setM h r v) r' = getM h r' := by
  induction h generalizing r r' with
  | nil => rfl
  | cons a t ih =>
    cases r with
    | zero =>
      cases r' with
      | zero => exact absurd rfl hne
      | succ n => rfl
    | succ k =>
      cases r' with
      | zero => rfl
      | succ n =>
        have : n ≠ k := fun hnk => hne (by rw [hnk])
        simpa [getM, setM, List.getD_cons_succ] using ih k n this

/-! ## Mat2 computation lemmas -/

theorem ctorV_four (a b c d : ℚ) : Mat2.ctorV [a, b, c, d] = ⟨a, b, c, d⟩ := rfl

theorem clone_eq (h : Heap) (m : Ref) :
    Mat2.clone h m = (h ++ [getM h m], h.length) := rfl

theorem multiplyByScalar_of_ne (h : Heap) (m : Ref) (num : ℚ) (hn : num ≠ 0) :
    Mat2.multiplyByScalar h m num
      = ((h ++ [getM h m]).set h.length (Mat2.scaleV (getM h m) num), h.length) := by
  unfold Mat2.multiplyByScalar
  rw [if_neg hn]
  simp only [clone_eq, Mat2.forEachRowOrder, getM_append_self, setM, Mat2.scaleV]

theorem multiplyByScalar_of_ne_getM (h : Heap) (m : Ref) (num : ℚ) (hn : num ≠ 0) :
    getM (Mat2.multiplyByScalar h m num).1 (Mat2.multiplyByScalar h m num).2
      = Mat2.scaleV (getM h m) num := by
  rw [multiplyByScalar_of_ne h m num hn]
  exact getM_set_self _ _ _ (by simp)

theorem inverse_of_ne (h : Heap) (m : Ref)
    (hd : Mat2.determinant (getM h m) ≠ 0) :
    Mat2.inverse h m
      = .ok (((h ++ [Mat2.adjV (getM h m)] ++ [Mat2.adjV (getM h m)]).set
                (h.length + 1) (Mat2.invV (getM h m))), h.length + 1) := by
  unfold Mat2.inverse
  rw [if_neg hd]
  have h1 : (1 : ℚ) / Mat2.determinant (getM h m) ≠ 0 := one_div_ne_zero hd
  have hadj : Mat2.ctorV [(getM h m).v22, -(getM h m).v12, -(getM h m).v21, (getM h m).v11]
      = Mat2.adjV (getM h m) := rfl
  simp only [allocM, hadj]
  rw [multiplyByScalar_of_ne _ _ _ h1]
  simp [getM_append_self, Mat2.invV]

theorem inverse_of_ne_getM (h : Heap) (m : Ref)
    (hd : Mat2.determinant (getM h m) ≠ 0) :
    ∃ h' : Heap, Mat2.inverse h m = .ok (h', h.length + 1)
      ∧ getM h' (h.length + 1) = Mat2.invV (getM h m) := by
  refine ⟨_, inverse_of_ne h m hd, ?_⟩
  refine getM_set_self _ _ _ ?_
  simp

/-! ## Algebra of the inverse value -/

theorem determinant_invV (m : Mat2V) (hd : Mat2.determinant m ≠ 0) :
    Mat2.determinant (Mat2.invV m) = 1 / Mat2.determinant m := by
  cases m with
  | mk a b c d =>
    simp only [Mat2.determinant, Mat2.invV, Mat2.adjV, Mat2.scaleV] at hd ⊢
    have h1 : d * (1 / (a * d - b * c)) * (a * (1 / (a * d - b * c)))
        - -b * (1 / (a * d - b * c)) * (-c * (1 / (a * d - b * c)))
        = (a * d - b * c) * (1 / (a * d - b * c)) * (1 / (a * d - b * c)) := by
      ring
    rw [h1, mul_one_div_cancel hd, one_mul]

theorem invV_invV (m : Mat2V) (hd : Mat2.determinant m ≠ 0) :
    Mat2.invV (Mat2.invV m) = m := by
  have h2 := determinant_invV m hd
  have step : Mat2.invV (Mat2.invV m)
      = Mat2.scaleV (Mat2.adjV (Mat2.invV m)) (1 / (1 / Mat2.determinant m)) := by
    rw [← h2]; rfl
  rw [step, one_div_one_div]
  cases m with
  | mk a b c d =>
    simp only [Mat2.determinant] at hd
    simp only [Mat2.invV, Mat2.adjV, Mat2.scaleV, Mat2.determinant, Mat2V.mk.injEq]
    refine ⟨?_, ?_, ?_, ?_⟩ <;> field_simp

theorem equalPerElement_self (m : Mat2V) : Mat2.equalPerElement m m = true := by
  simp [Mat2.equalPerElement]

/-! ## Claim theorems -/

/-- C1: Mat2.inverse raises its error exactly when the determinant
v11*v22 - v12*v21 is zero, and on every matrix with nonzero determinant it
returns a result normally. -/
theorem inverse_fails_iff_det_zero (h : Heap) (m : Ref) :
    (Mat2.inverse h m = .error .canNotBeInverse
        ↔ Mat2.determinant (getM h m) = 0)
    ∧ ((∃ p, Mat2.inverse h m = .ok p)
        ↔ ¬ Mat2.determinant (getM h m) = 0) := by
  by_cases hd : Mat2.determinant (getM h m) = 0 <;>
    simp [Mat2.inverse, hd]

/-- C3: multiplying any matrix on the right by Mat2.IDENTITY yields a
matrix equal per element to the original (on any heap where the shared
IDENTITY object still holds the identity value). -/
theorem multiply_identity_right (h : Heap) (m : Ref)
    (hid : getM h Mat2.identityRef = Mat2.IDENTITY) :
    Mat2.equalPerElement
      (getM (Mat2.multiply h m Mat2.identityRef).1 (Mat2.multiply h m Mat2.identityRef).2)
      (getM h m) = true := by
  cases hM : getM h m with
  | mk a b c d =>
    simp only [Mat2.multiply, allocM, getM_append_self, hid, hM]
    simp [Mat2.multiplyV, Mat2.flat, Mat2.toFlatArray, Mat2.toArray, Mat2.IDENTITY,
      Mat2.ctorV, Mat2.mkMat2, Mat2.equalPerElement]

/-- C3 witness: on the initial heap, multiplying the zero matrix by the
identity gives back the zero matrix per element. -/
theorem multiply_identity_right_witness :
    getM Mat2.initHeap Mat2.identityRef = Mat2.IDENTITY ∧
    Mat2.equalPerElement
      (getM (Mat2.multiply Mat2.initHeap Mat2.zeroRef Mat2.identityRef).1
            (Mat2.multiply Mat2.initHeap Mat2.zeroRef Mat2.identityRef).2)
      (getM Mat2.initHeap Mat2.zeroRef) = true :=
  ⟨rfl, multiply_identity_right Mat2.initHeap Mat2.zeroRef rfl⟩

/-- C10: Mat2.equalPerElement is true exactly when all four corresponding
elements are exactly equal; no tolerance is applied. -/
theorem equalPerElement_iff_exact (a b : Mat2V) :
    Mat2.equalPerElement a b = true
      ↔ (a.v11 = b.v11 ∧ a.v12 = b.v12 ∧ a.v21 = b.v21 ∧ a.v22 = b.v22) := by
  simp [Mat2.equalPerElement]

/-- C6: the Mat2 constructor is total over every argument list: the
resulting elements are the first four values in row-major order, missing
positions zero-filled and extra positions truncated, and the non-fatal
warning is emitted exactly when the argument count differs from 4. -/
theorem constructor_fill_truncate (values : List ℚ) :
    (Mat2.mkMat2 values).1
      = ⟨values.getD 0 0, values.getD 1 0, values.getD 2 0, values.getD 3 0⟩
    ∧ ((Mat2.mkMat2 values).2 = [] ↔ values.length = 4) := by
  rcases values with _ | ⟨a, _ | ⟨b, _ | ⟨c, _ | ⟨d, _ | ⟨e, rest⟩⟩⟩⟩⟩
  · exact ⟨rfl, by simp [Mat2.mkMat2]⟩
  · exact ⟨rfl, by simp [Mat2.mkMat2]⟩
  · exact ⟨rfl, by simp [Mat2.mkMat2]⟩
  · exact ⟨rfl, by simp [Mat2.mkMat2]⟩
  · exact ⟨rfl, by simp [Mat2.mkMat2]⟩
  · have h5 : (a :: b :: c :: d :: e :: rest).length > 4 := by
      simp [List.length_cons]
    constructor
    · simp [Mat2.mkMat2, h5, List.getD_cons_succ]
    · simp [Mat2.mkMat2, h5]

/-- C2: on any matrix with nonzero determinant, inverting twice returns
normally (the intermediate determinant is again nonzero) and gives back
the original matrix per element, exactly, under the exact rational
arithmetic of this embedding. -/
theorem inverse_inverse_roundTrip (h : Heap) (m : Ref)
    (hd : Mat2.determinant (getM h m) ≠ 0) :
    ∃ (h₁ : Heap) (r₁ : Ref) (h₂ : Heap) (r₂ : Ref),
      Mat2.inverse h m = .ok (h₁, r₁)
      ∧ ¬ Mat2.determinant (getM h₁ r₁) = 0
      ∧ Mat2.inverse h₁ r₁ = .ok (h₂, r₂)
      ∧ Mat2.equalPerElement (getM h₂ r₂) (getM h m) = true := by
  obtain ⟨h₁, hok₁, hv₁⟩ := inverse_of_ne_getM h m hd
  have hd₁ : Mat2.determinant (getM h₁ (h.length + 1)) ≠ 0 := by
    rw [hv₁, determinant_invV _ hd]
    exact one_div_ne_zero hd
  obtain ⟨h₂, hok₂, hv₂⟩ := inverse_of_ne_getM h₁ (h.length + 1) hd₁
  refine ⟨h₁, h.length + 1, h₂, h₁.length + 1, hok₁, hd₁, hok₂, ?_⟩
  rw [hv₂, hv₁, invV_invV _ hd]
  exact equalPerElement_self _

/-- C2 witness: the identity matrix on the initial heap has determinant 1
and inverts twice back to itself. -/
theorem inverse_inverse_roundTrip_witness :
    Mat2.determinant (getM Mat2.initHeap Mat2.identityRef) ≠ 0
    ∧ ∃ (h₁ : Heap) (r₁ : Ref) (h₂ : Heap) (r₂ : Ref),
        Mat2.inverse Mat2.initHeap Mat2.identityRef = .ok (h₁, r₁)
        ∧ ¬ Mat2.determinant (getM h₁ r₁) = 0
        ∧ Mat2.inverse h₁ r₁ = .ok (h₂, r₂)
        ∧ Mat2.equalPerElement (getM h₂ r₂) (getM Mat2.initHeap Mat2.identityRef) = true :=
  ⟨by simp [getM, Mat2.initHeap, Mat2.identityRef, Mat2.IDENTITY, Mat2.ctorV, Mat2.mkMat2,
      Mat2.determinant],
   inverse_inverse_roundTrip Mat2.initHeap Mat2.identityRef
     (by simp [getM, Mat2.initHeap, Mat2.identityRef, Mat2.IDENTITY, Mat2.ctorV, Mat2.mkMat2,
        Mat2.determinant])⟩

/-- C5: copyTo with the target omitted writes the source elements into the
shared static Mat2.ZERO object and returns that object; afterwards the
shared zero no longer holds all zeros (when the source does not), and
multiplyByScalar with scalar 0 — which returns the shared Mat2.ZERO
object, not a fresh matrix — yields the copied elements instead of the
zero matrix. -/
theorem copyTo_default_mutates_ZERO (h : Heap) (src m : Ref)
    (hz : Mat2.zeroRef < h.length) (hs : getM h src ≠ Mat2.ZERO) :
    (Mat2.copyTo h src Mat2.zeroRef).2 = Mat2.zeroRef
    ∧ getM (Mat2.copyTo h src Mat2.zeroRef).1 Mat2.zeroRef = getM h src
    ∧ getM (Mat2.copyTo h src Mat2.zeroRef).1 Mat2.zeroRef ≠ Mat2.ZERO
    ∧ Mat2.multiplyByScalar (Mat2.copyTo h src Mat2.zeroRef).1 m 0
        = ((Mat2.copyTo h src Mat2.zeroRef).1, Mat2.zeroRef)
    ∧ getM (Mat2.multiplyByScalar (Mat2.copyTo h src Mat2.zeroRef).1 m 0).1
        (Mat2.multiplyByScalar (Mat2.copyTo h src Mat2.zeroRef).1 m 0).2
        = getM h src := by
  have hget : getM (Mat2.copyTo h src Mat2.zeroRef).1 Mat2.zeroRef = getM h src :=
    getM_set_self h Mat2.zeroRef (getM h src) hz
  have hmul : Mat2.multiplyByScalar (Mat2.copyTo h src Mat2.zeroRef).1 m 0
      = ((Mat2.copyTo h src Mat2.zeroRef).1, Mat2.zeroRef) := by
    unfold Mat2.multiplyByScalar
    rw [if_pos rfl]
  refine ⟨rfl, hget, ?_, hmul, ?_⟩
  · rw [hget]; exact hs
  · rw [hmul]; exact hget

/-- C5 witness: on the initial heap, copying the identity into the omitted
target overwrites the shared zero, and scaling by 0 then returns the
identity elements. -/
theorem copyTo_default_mutates_ZERO_witness :
    Mat2.zeroRef < Mat2.initHeap.length
    ∧ getM Mat2.initHeap Mat2.identityRef ≠ Mat2.ZERO
    ∧ ((Mat2.copyTo Mat2.initHeap Mat2.identityRef Mat2.zeroRef).2 = Mat2.zeroRef
    ∧ getM (Mat2.copyTo Mat2.initHeap Mat2.identityRef Mat2.zeroRef).1 Mat2.zeroRef
        = getM Mat2.initHeap Mat2.identityRef
    ∧ getM (Mat2.copyTo Mat2.initHeap Mat2.identityRef Mat2.zeroRef).1 Mat2.zeroRef ≠ Mat2.ZERO
    ∧ Mat2.multiplyByScalar (Mat2.copyTo Mat2.initHeap Mat2.identityRef Mat2.zeroRef).1
        Mat2.identityRef 0
        = ((Mat2.copyTo Mat2.initHeap Mat2.identityRef Mat2.zeroRef).1, Mat2.zeroRef)
    ∧ getM (Mat2.multiplyByScalar (Mat2.copyTo Mat2.initHeap Mat2.identityRef Mat2.zeroRef).1
          Mat2.identityRef 0).1
        (Mat2.multiplyByScalar (Mat2.copyTo Mat2.initHeap Mat2.identityRef Mat2.zeroRef).1
          Mat2.identityRef 0).2
        = getM Mat2.initHeap Mat2.identityRef) :=
  ⟨by decide,
   by simp [getM, Mat2.initHeap, Mat2.identityRef, Mat2.IDENTITY, Mat2.ZERO, Mat2.ctorV,
      Mat2.mkMat2],
   copyTo_default_mutates_ZERO Mat2.initHeap Mat2.identityRef Mat2.identityRef
     (by decide)
     (by simp [getM, Mat2.initHeap, Mat2.identityRef, Mat2.IDENTITY, Mat2.ZERO, Mat2.ctorV,
        Mat2.mkMat2])⟩

/-- C9: multiplyByScalar never changes its argument object (with scalar 0
it allocates nothing and returns the shared zero object; otherwise it
mutates only a fresh clone), and — as long as the shared Mat2.ZERO object
still holds all zeros — every element of the returned object equals the
corresponding element of the argument times the scalar. -/
theorem multiplyByScalar_frame (h : Heap) (m : Ref) (num : ℚ)
    (hm : m < h.length) (hz : getM h Mat2.zeroRef = Mat2.ZERO) :
    getM (Mat2.multiplyByScalar h m num).1 m = getM h m
    ∧ getM (Mat2.multiplyByScalar h m num).1 (Mat2.multiplyByScalar h m num).2
        = Mat2.scaleV (getM h m) num := by
  by_cases hn : num = 0
  · subst hn
    have he : Mat2.multiplyByScalar h m 0 = (h, Mat2.zeroRef) := by
      unfold Mat2.multiplyByScalar
      rw [if_pos rfl]
    rw [he]
    refine ⟨rfl, ?_⟩
    rw [hz]
    cases hM : getM h m with
    | mk a b c d => simp [Mat2.scaleV, Mat2.ZERO, Mat2.ctorV, Mat2.mkMat2]
  · rw [multiplyByScalar_of_ne h m num hn]
    constructor
    · exact (getM_set_ne (h ++ [getM h m]) h.length m (Mat2.scaleV (getM h m) num)
        (Nat.ne_of_lt hm)).trans (getM_append_lt h (getM h m) m hm)
    · exact getM_set_self _ _ _ (by simp)

/-- C9 witness: scaling the identity by 5 on the initial heap leaves the
identity object unchanged and returns a fresh object holding 5 times the
identity. -/
theorem multiplyByScalar_frame_witness :
    Mat2.identityRef < Mat2.initHeap.length
    ∧ getM Mat2.initHeap Mat2.zeroRef = Mat2.ZERO
    ∧ (getM (Mat2.multiplyByScalar Mat2.initHeap Mat2.identityRef 5).1 Mat2.identityRef
        = getM Mat2.initHeap Mat2.identityRef
    ∧ getM (Mat2.multiplyByScalar Mat2.initHeap Mat2.identityRef 5).1
        (Mat2.multiplyByScalar Mat2.initHeap Mat2.identityRef 5).2
        = Mat2.scaleV (getM Mat2.initHeap Mat2.identityRef) 5) :=
  ⟨by decide, by decide,
    multiplyByScalar_frame Mat2.initHeap Mat2.identityRef 5 (by decide) (by decide)⟩

/-- C4 counterexample: for the matrix with elements 1, 2, 3, 4, the array
Mat2.toArray produces is the nested array [[1,2],[3,4]]; feeding it to
Mat2.fromArray spreads two array values into the constructor (a type
error in TypeScript; under JavaScript runtime semantics the result holds
the two row arrays in v11 and v12 and zeros in v21 and v22), so the
result is not equal per element to the original — v21 is 0, not 3. -/
theorem fromArray_toArray_no_roundTrip :
    Mat2.toArray (Mat2.ctorV [1, 2, 3, 4]) = [[1, 2], [3, 4]]
    ∧ Mat2J.toArrayJ (Mat2J.jOfV (Mat2.ctorV [1, 2, 3, 4]))
        = [.arr [.num 1, .num 2], .arr [.num 3, .num 4]]
    ∧ Mat2J.equalPerElementJ
        (Mat2J.fromArrayJ (Mat2J.toArrayJ (Mat2J.jOfV (Mat2.ctorV [1, 2, 3, 4]))))
        (Mat2J.jOfV (Mat2.ctorV [1, 2, 3, 4])) = false
    ∧ (Mat2J.fromArrayJ (Mat2J.toArrayJ (Mat2J.jOfV (Mat2.ctorV [1, 2, 3, 4])))).v21
        = JVal.num 0 :=
  ⟨rfl, rfl, rfl, rfl⟩

/-- C4 (amended): feeding the flat row-major array produced by
Mat2.toFlatArray (toArray flattened) back into Mat2.fromArray yields a
matrix equal per element to the original. -/
theorem fromArray_toFlatArray_roundTrip (h : Heap) (m : Mat2V) :
    Mat2.equalPerElement
      (getM (Mat2.fromArray h (Mat2.toFlatArray m)).1
            (Mat2.fromArray h (Mat2.toFlatArray m)).2)
      m = true := by
  cases m with
  | mk a b c d =>
    simp only [Mat2.fromArray, allocM, getM_append_self]
    simp [Mat2.toFlatArray, Mat2.toArray, Mat2.ctorV, Mat2.mkMat2, Mat2.equalPerElement]

/-! ## Vec3 lemmas -/

theorem Vec3.add_eq_self_iff (o u : Vec3) : Vec3.add o u = o ↔ u = Vec3.zero := by
  cases o with
  | mk ox oy oz =>
    cases u with
    | mk ux uy uz =>
      simp [Vec3.add, Vec3.zero, Vec3.mk.injEq, add_right_eq_self]

theorem Vec3.smul_eq_zero_iff (c : ℚ) (u : Vec3) (hc : c ≠ 0) :
    Vec3.smul c u = Vec3.zero ↔ u = Vec3.zero := by
  cases u with
  | mk ux uy uz =>
    simp [Vec3.smul, Vec3.zero, Vec3.mk.injEq, mul_eq_zero, hc]

theorem Vec3.sub_add_cancel_left (a b : Vec3) : Vec3.sub (Vec3.add a b) a = b := by
  cases a with
  | mk ax ay az =>
    cases b with
    | mk b1 b2 b3 =>
      simp only [Vec3.sub, Vec3.add, Vec3.mk.injEq]
      exact ⟨by ring, by ring, by ring⟩

theorem Vec3.smul_zero_left (u : Vec3) : Vec3.smul 0 u = Vec3.zero := by
  cases u with
  | mk ux uy uz => simp [Vec3.smul, Vec3.zero]

theorem Vec3.add_zero_right (a : Vec3) : Vec3.add a Vec3.zero = a := by
  cases a with
  | mk ax ay az => simp [Vec3.add, Vec3.zero]

theorem Vec3.cross_smul_self (c : ℚ) (u : Vec3) :
    Vec3.cross u (Vec3.smul c u) = Vec3.zero := by
  cases u with
  | mk ux uy uz =>
    simp only [Vec3.cross, Vec3.smul, Vec3.zero, Vec3.mk.injEq]
    exact ⟨by ring, by ring, by ring⟩

theorem Vec3.normSq_eq_zero_iff (w : Vec3) : Vec3.normSq w = 0 ↔ w = Vec3.zero := by
  cases w with
  | mk x y z =>
    simp only [Vec3.normSq, Vec3.dot, Vec3.zero, Vec3.mk.injEq]
    constructor
    · intro h
      have hx : x * x = 0 :=
        le_antisymm (by nlinarith [mul_self_nonneg y, mul_self_nonneg z]) (mul_self_nonneg x)
      have hy : y * y = 0 :=
        le_antisymm (by nlinarith [mul_self_nonneg x, mul_self_nonneg z]) (mul_self_nonneg y)
      have hz : z * z = 0 :=
        le_antisymm (by nlinarith [mul_self_nonneg x, mul_self_nonneg y]) (mul_self_nonneg z)
      exact ⟨mul_self_eq_zero.mp hx, mul_self_eq_zero.mp hy, mul_self_eq_zero.mp hz⟩
    · rintro ⟨hx, hy, hz⟩
      rw [hx, hy, hz]
      ring

/-! ## Line claims -/

/-- C7: on a Line constructed with origin equal to end, every distance
computation — distancePoint, distanceSegment, distanceLine, distanceRay,
distanceTriangle, distancePolyline — fails with the explicit
degenerate-construction error; none returns a (NaN or other) value. -/
theorem degenerate_line_distances_fail (l : Line) (hdeg : l.origin = l.endPt)
    (pt : Vec3) (seg : Segment) (other : Line) (ray : Ray) (tri : Triangle)
    (pts : List Vec3) :
    l.distancePoint pt = .error .degenerateConstruction
    ∧ l.distanceSegment seg = .error .degenerateConstruction
    ∧ l.distanceLine other = .error .degenerateConstruction
    ∧ l.distanceRay ray = .error .degenerateConstruction
    ∧ l.distanceTriangle tri = .error .degenerateConstruction
    ∧ l.distancePolyline pts = .error .degenerateConstruction := by
  simp [Line.distancePoint, Line.distanceSegment, Line.distanceLine, Line.distanceRay,
    Line.distanceTriangle, Line.distancePolyline, hdeg]

/-- C7 witness: the line from the origin to itself makes all six distance
computations fail at concrete inputs. -/
theorem degenerate_line_distances_fail_witness :
    (Line.mk ⟨0, 0, 0⟩ ⟨0, 0, 0⟩).origin = (Line.mk ⟨0, 0, 0⟩ ⟨0, 0, 0⟩).endPt
    ∧ ((Line.mk ⟨0, 0, 0⟩ ⟨0, 0, 0⟩).distancePoint ⟨1, 1, 1⟩
          = .error .degenerateConstruction
    ∧ (Line.mk ⟨0, 0, 0⟩ ⟨0, 0, 0⟩).distanceSegment ⟨⟨0, 0, 0⟩, ⟨1, 0, 0⟩⟩
          = .error .degenerateConstruction
    ∧ (Line.mk ⟨0, 0, 0⟩ ⟨0, 0, 0⟩).distanceLine ⟨⟨0, 0, 0⟩, ⟨1, 0, 0⟩⟩
          = .error .degenerateConstruction
    ∧ (Line.mk ⟨0, 0, 0⟩ ⟨0, 0, 0⟩).distanceRay ⟨⟨0, 0, 0⟩, ⟨1, 0, 0⟩⟩
          = .error .degenerateConstruction
    ∧ (Line.mk ⟨0, 0, 0⟩ ⟨0, 0, 0⟩).distanceTriangle ⟨⟨0, 0, 0⟩, ⟨1, 0, 0⟩, ⟨0, 1, 0⟩⟩
          = .error .degenerateConstruction
    ∧ (Line.mk ⟨0, 0, 0⟩ ⟨0, 0, 0⟩).distancePolyline [⟨0, 0, 0⟩, ⟨1, 0, 0⟩]
          = .error .degenerateConstruction) :=
  ⟨rfl, degenerate_line_distances_fail ⟨⟨0, 0, 0⟩, ⟨0, 0, 0⟩⟩ rfl ⟨1, 1, 1⟩
    ⟨⟨0, 0, 0⟩, ⟨1, 0, 0⟩⟩ ⟨⟨0, 0, 0⟩, ⟨1, 0, 0⟩⟩ ⟨⟨0, 0, 0⟩, ⟨1, 0, 0⟩⟩
    ⟨⟨0, 0, 0⟩, ⟨1, 0, 0⟩, ⟨0, 1, 0⟩⟩ [⟨0, 0, 0⟩, ⟨1, 0, 0⟩]⟩

/-- C8: for two parallel lines — the second offset from the first by a
perpendicular vector w and directed along a nonzero multiple of the same
direction — distanceLine succeeds through the parallel fallback
(line-to-point against the other line's origin) and reports squared
distance exactly normSq w, the squared length of the offset; for a
nonzero offset that squared distance is nonzero, so the computation
neither fails nor returns 0. -/
theorem parallel_lines_distance (o u w : Vec3) (c : ℚ)
    (hu : u ≠ Vec3.zero) (hc : c ≠ 0) (hw : Vec3.dot w u = 0)
    (hwz : w ≠ Vec3.zero) :
    Line.distanceLine ⟨o, Vec3.add o u⟩
        ⟨Vec3.add o w, Vec3.add (Vec3.add o w) (Vec3.smul c u)⟩
      = .ok ⟨Vec3.normSq w, o, Vec3.add o w⟩
    ∧ Vec3.normSq w ≠ 0 := by
  have hd1 : ¬ (o = Vec3.add o u) := by
    intro h
    exact hu ((Vec3.add_eq_self_iff o u).mp h.symm)
  have hd2 : ¬ (Vec3.add o w = Vec3.add (Vec3.add o w) (Vec3.smul c u)) := by
    intro h
    exact hu ((Vec3.smul_eq_zero_iff c u hc).mp
      ((Vec3.add_eq_self_iff (Vec3.add o w) (Vec3.smul c u)).mp h.symm))
  constructor
  · have hcross : Vec3.cross u (Vec3.smul c u) = Vec3.zero := Vec3.cross_smul_self c u
    simp [Line.distanceLine, Line.direction, if_neg hd1, if_neg hd2,
      Vec3.sub_add_cancel_left, hcross, Line.linePointCore, hw, zero_div,
      Vec3.smul_zero_left, Vec3.add_zero_right]
  · intro h
    exact hwz ((Vec3.normSq_eq_zero_iff w).mp h)

/-- C8 witness: the x-axis and its translate by the perpendicular unit
vector in y report squared distance 1 without failing. -/
theorem parallel_lines_distance_witness :
    (⟨1, 0, 0⟩ : Vec3) ≠ Vec3.zero ∧ (1 : ℚ) ≠ 0
    ∧ Vec3.dot ⟨0, 1, 0⟩ ⟨1, 0, 0⟩ = 0 ∧ (⟨0, 1, 0⟩ : Vec3) ≠ Vec3.zero
    ∧ (Line.distanceLine ⟨⟨0, 0, 0⟩, Vec3.add ⟨0, 0, 0⟩ ⟨1, 0, 0⟩⟩
          ⟨Vec3.add ⟨0, 0, 0⟩ ⟨0, 1, 0⟩,
           Vec3.add (Vec3.add ⟨0, 0, 0⟩ ⟨0, 1, 0⟩) (Vec3.smul 1 ⟨1, 0, 0⟩)⟩
        = .ok ⟨Vec3.normSq ⟨0, 1, 0⟩, ⟨0, 0, 0⟩, Vec3.add ⟨0, 0, 0⟩ ⟨0, 1, 0⟩⟩
      ∧ Vec3.normSq ⟨0, 1, 0⟩ ≠ 0) :=
  ⟨by simp [Vec3.zero], one_ne_zero, by simp [Vec3.dot], by simp [Vec3.zero],
   parallel_lines_distance ⟨0, 0, 0⟩ ⟨1, 0, 0⟩ ⟨0, 1, 0⟩ 1
     (by simp [Vec3.zero]) one_ne_zero (by simp [Vec3.dot]) (by simp [Vec3.zero])⟩

end CGA
